import Mathlib

/-!
Verification of the smtpkit SMTP wire-syntax library: a shallow embedding of
its byte-slice helpers, grammar validators, token iterators, single-command
parser, streaming parser state machine and serializer, together with theorems
settling the specification claims about them.

Bytes are modelled as `List Nat` (each element an octet value); `Bytes` from
the `bytes` crate and `&[u8]` slices both become plain lists.
-/

set_option maxRecDepth 40000

namespace Smtpkit

/-- Byte strings: a sequence of octet values. -/
abbrev Bytes := List Nat

/-- Bytes of an ASCII string literal (the Rust byte-string b"..."). -/
def strB (s : String) : Bytes := s.toList.map (fun c => c.toNat)

/-- ASCII lowercase of one byte (`u8::to_ascii_lowercase`). -/
def toLower8 (c : Nat) : Nat := if 65 ≤ c ∧ c ≤ 90 then c + 32 else c

/-- Case-insensitive byte-string equality (`eq_ignore_ascii_case`). -/
def eqIC (a b : Bytes) : Bool := a.map toLower8 == b.map toLower8

/-- ASCII decimal digit test (`u8::is_ascii_digit`). -/
def isDigitB (c : Nat) : Bool := 48 ≤ c && c ≤ 57

/-- ASCII alphanumeric test (`u8::is_ascii_alphanumeric`). -/
def isAlnumB (c : Nat) : Bool :=
  (48 ≤ c && c ≤ 57) || (65 ≤ c && c ≤ 90) || (97 ≤ c && c ≤ 122)

/-- ASCII hex-digit test (`u8::is_ascii_hexdigit`). -/
def isHexDigitB (c : Nat) : Bool :=
  (48 ≤ c && c ≤ 57) || (97 ≤ c && c ≤ 102) || (65 ≤ c && c ≤ 70)

/-- First index of byte `d` (`bstr::find_byte` / `Iterator::position`). -/
def findB (d : Nat) : Bytes → Option Nat
  | [] => none
  | c :: rest => if c = d then some 0 else (findB d rest).map (· + 1)

/-- First index at which `pat` occurs as a contiguous sub-slice
(`bstr::Finder::find`). -/
def findSub (pat : Bytes) : Bytes → Option Nat
  | [] => if pat.isEmpty then some 0 else none
  | c :: rest =>
    if pat.isPrefixOf (c :: rest) then some 0 else (findSub pat rest).map (· + 1)

/-- Split at the first occurrence of byte `d`, dropping the delimiter
(`Helpers::split_once` / `bstr::split_once_str` with a one-byte needle). -/
def splitOnceB (d : Nat) (l : Bytes) : Option (Bytes × Bytes) :=
  (findB d l).map fun pos => (l.take pos, l.drop (pos + 1))

/-- Split at the last occurrence of byte `d`, dropping the delimiter
(`bstr::rsplit_once_str` with a one-byte needle). -/
def rsplitOnceB (d : Nat) : Bytes → Option (Bytes × Bytes)
  | [] => none
  | c :: rest =>
    match rsplitOnceB d rest with
    | some (pre, post) => some (c :: pre, post)
    | none => if c = d then some ([], rest) else none

/-- Rust `slice::split` on the single byte `d`: the pieces between
delimiters, one more piece than there are delimiters (an empty slice gives
one empty piece). -/
def splitB (d : Nat) : Bytes → List Bytes
  | [] => [[]]
  | c :: rest =>
    if c = d then [] :: splitB d rest
    else
      match splitB d rest with
      | [] => [[c]]
      | t :: ts => (c :: t) :: ts

/-- The helper `strip_prefix_ci`: case-insensitively strip `pre` from the
front of `l`. -/
def stripPrefixCI (l pre : Bytes) : Option Bytes :=
  if l.length < pre.length then none
  else if eqIC (l.take pre.length) pre then some (l.drop pre.length) else none

/-- The helper `strip_angled`: strip a leading `<` and trailing `>`. -/
def stripAngled (l : Bytes) : Option Bytes :=
  if l.head? = some 60 ∧ l.getLast? = some 62 then some ((l.drop 1).dropLast)
  else none

/-- The helper `strip_brackets`: strip a leading `[` and trailing `]`. -/
def stripBrackets (l : Bytes) : Option Bytes :=
  if l.head? = some 91 ∧ l.getLast? = some 93 then some ((l.drop 1).dropLast)
  else none

/-- The helper `strip_quotes`: strip a leading and a trailing `"`. -/
def stripQuotes (l : Bytes) : Option Bytes :=
  match l with
  | 34 :: rest => if rest.getLast? = some 34 then some rest.dropLast else none
  | _ => none

/-! Grammar validators (`src/parse/helpers.rs`). -/

/-- The validator `is_atext`: non-empty, every byte alphanumeric or one of
the atext specials. -/
def is_atext (l : Bytes) : Bool :=
  !l.isEmpty &&
    l.all fun c =>
      isAlnumB c || c == 33 || (35 ≤ c && c ≤ 39) || (42 ≤ c && c ≤ 43) ||
        c == 45 || c == 47 || c == 61 || c == 63 || c == 94 || c == 95 ||
        c == 96 || (123 ≤ c && c ≤ 125)

/-- The validator `is_dot_string`: first atom before the first `.`, then all
remaining `.`-separated pieces are atext. -/
def is_dot_string (l : Bytes) : Bool :=
  let p := (splitOnceB 46 l).getD (l, [])
  if !is_atext p.1 then false
  else if p.2.isEmpty then true
  else (splitB 46 p.2).all is_atext

/-- The validator `is_qtext` on one byte. -/
def is_qtext (c : Nat) : Bool :=
  (32 ≤ c && c ≤ 33) || (35 ≤ c && c ≤ 91) || (93 ≤ c && c ≤ 126)

/-- The validator `is_quoted_pair` on one byte. -/
def is_quoted_pair (c : Nat) : Bool := 32 ≤ c && c ≤ 126

/-- Interior scan of `is_quoted_string`: a `\` must be followed by a
quoted-pair byte (both consumed), any other byte must be qtext. -/
def qsScan : Bytes → Bool
  | [] => true
  | 92 :: rest =>
    match rest with
    | c :: rest2 => if is_quoted_pair c then qsScan rest2 else false
    | [] => false
  | c :: rest => if is_qtext c then qsScan rest else false

/-- The validator `is_quoted_string`. -/
def is_quoted_string (l : Bytes) : Bool :=
  match stripQuotes l with
  | none => false
  | some s => qsScan s

/-- The validator `is_subdomain`: non-empty, no leading or trailing `-`,
every byte alphanumeric or `-`. -/
def is_subdomain (l : Bytes) : Bool :=
  if l.isEmpty then false
  else if l.head? = some 45 ∨ l.getLast? = some 45 then false
  else l.all fun c => isAlnumB c || c == 45

/-- Body of `is_domain` on the split pair `(a, b)`. -/
def domainCheck : Bytes × Bytes → Bool
  | (a, b) =>
    if !is_subdomain a then false
    else if b.isEmpty then true
    else (splitB 46 b).all is_subdomain

/-- The validator `is_domain`: the piece before the first `.` is a
subdomain; if nothing follows the first `.` accept; otherwise every
`.`-separated piece of the remainder is a subdomain. -/
def is_domain (l : Bytes) : Bool :=
  domainCheck ((splitOnceB 46 l).getD (l, []))

/-- The validator `is_local_part`: dot-string or quoted-string. -/
def is_local_part (l : Bytes) : Bool := is_dot_string l || is_quoted_string l

/-- The validator `is_xchar` on one byte (`src/lib.rs`). -/
def is_xchar (c : Nat) : Bool :=
  (33 ≤ c && c ≤ 42) || (44 ≤ c && c ≤ 60) || (62 ≤ c && c ≤ 126)

/-! Token iterators (`src/parse/iterators.rs`). -/

/-- One pass of the `Tokens` iterator materialised as a list: each step takes
the bytes before the first delimiter as the token, then consumes one
delimiter if any bytes remain.  The fuel argument only bounds the recursion;
every step consumes at least one byte of a non-empty buffer, so fuel
`length + 1` always suffices and the fuel-exhausted branch is unreachable
from `tokensList`. -/
def tokensGo (d : Nat) : Nat → Bytes → List Bytes
  | 0, _ => []
  | _, [] => []
  | fuel + 1, bs =>
    let pos := (findB d bs).getD bs.length
    let token := bs.take pos
    let rest := bs.drop pos
    let rest2 := if rest.isEmpty then rest else rest.drop 1
    token :: tokensGo d fuel rest2

/-- All items yielded by `Tokens::new(bs, d)`. -/
def tokensList (bs : Bytes) (d : Nat) : List Bytes := tokensGo d (bs.length + 1) bs

/-- The CRLF needle of the parser's `crlf_finder`. -/
def crlfB : Bytes := [13, 10]

/-- The `\r\n.\r\n` needle of the parser's `data_finder`. -/
def dataTermB : Bytes := [13, 10, 46, 13, 10]

/-- One pass of the `Lines` iterator materialised as a list: yields the
bytes before each `\r\n`; a trailing piece without `\r\n` is not yielded.
Fuel `length + 1` suffices since every step consumes at least two bytes. -/
def linesGo : Nat → Bytes → List Bytes
  | 0, _ => []
  | fuel + 1, bs =>
    match findSub crlfB bs with
    | none => []
    | some pos => bs.take pos :: linesGo fuel (bs.drop (pos + 2))

/-- All lines yielded by `Lines::new(bs)`. -/
def linesList (bs : Bytes) : List Bytes := linesGo (bs.length + 1) bs

/-! Integer parsing. -/

/-- Error kinds of the `btoi` crate relevant to `btou_radix`. -/
inductive BtoiErr
  | emptyInput
  | invalidDigit
  | posOverflow
  deriving DecidableEq

/-- Digit-accumulation loop of `btoi::btou_radix::<usize>(_, 10)`: left to
right, first non-digit is `InvalidDigit`, a value no longer representable in
64 bits is `PosOverflow` (usize is 64-bit). -/
def btouGo (acc : Nat) : Bytes → Except BtoiErr Nat
  | [] => .ok acc
  | c :: rest =>
    if isDigitB c then
      let acc2 := acc * 10 + (c - 48)
      if acc2 < 2 ^ 64 then btouGo acc2 rest else .error .posOverflow
    else .error .invalidDigit

/-- The entry point `btou_radix::<usize>(input, 10)`. -/
def btouDec (l : Bytes) : Except BtoiErr Nat :=
  if l.isEmpty then .error .emptyInput else btouGo 0 l

/-- The standard-library `usize::from_ascii` (decimal `from_str_radix`
semantics): an optional leading `+`, then one or more digits, value within
64 bits. -/
def fromAsciiUsize (l : Bytes) : Option Nat :=
  let l2 := match l with
    | 43 :: rest => rest
    | _ => l
  if l2.isEmpty then none
  else
    match btouGo 0 l2 with
    | .ok n => some n
    | .error _ => none

/-! XText scanning, decoding and encoding (`src/parse/parse_impl.rs` and
`src/types/mod.rs`). -/

/-- Validation loop of `TryFrom<Bytes> for XText`: while at least three
bytes remain (the source condition `i + 2 < len`), a `+` must head a
`+HH` hex triplet; otherwise the byte must be an xchar. -/
def xtextOk : Bytes → Bool
  | [] => true
  | c :: h1 :: h2 :: rest =>
    if c = 43 then (isHexDigitB h1 && isHexDigitB h2) && xtextOk rest
    else is_xchar c && xtextOk (h1 :: h2 :: rest)
  | c :: rest => is_xchar c && xtextOk rest

/-- Hex value of a hex-digit byte (`decode_hex`; non-hex input is
`unreachable!` in the source and mapped to 0 here). -/
def decodeHexD (c : Nat) : Nat :=
  if 48 ≤ c ∧ c ≤ 57 then c - 48
  else if 97 ≤ c ∧ c ≤ 102 then c - 97 + 10
  else if 65 ≤ c ∧ c ≤ 70 then c - 65 + 10
  else 0

/-- Hex-digit byte of a value below 16 (`encode_hex`; input 16 or more is
`unreachable!` in the source and mapped to 0 here). -/
def encodeHexD (b : Nat) : Nat :=
  if b ≤ 9 then 48 + b
  else if b ≤ 15 then 65 + (b - 10)
  else 0

/-- The decoding loop `XText::decode_into`: while at least three bytes
remain, a `+HH` triplet decodes to one byte; every other byte is copied. -/
def xtextDecode : Bytes → Bytes
  | [] => []
  | c :: h1 :: h2 :: rest =>
    if c = 43 then ((decodeHexD h1) <<< 4 ||| decodeHexD h2) :: xtextDecode rest
    else c :: xtextDecode (h1 :: h2 :: rest)
  | c :: rest => c :: xtextDecode rest

/-- The encoder `XText::encode`: xchars pass through verbatim, any other
byte becomes `+` followed by two uppercase hex digits. -/
def xtextEncode : Bytes → Bytes
  | [] => []
  | c :: rest =>
    if is_xchar c then c :: xtextEncode rest
    else 43 :: encodeHexD (c >>> 4) :: encodeHexD (c &&& 15) :: xtextEncode rest

/-! Typed value model (`src/types`). -/

/-- The `Domain` newtype. -/
structure Domain where
  bytes : Bytes
  deriving DecidableEq

/-- The `Email` newtype. -/
structure Email where
  bytes : Bytes
  deriving DecidableEq

/-- The `Address` newtype (a bracketed address literal, kept verbatim). -/
structure Address where
  bytes : Bytes
  deriving DecidableEq

/-- The `XText` newtype. -/
structure XTextS where
  bytes : Bytes
  deriving DecidableEq

/-- The `Base64` newtype. -/
structure Base64S where
  bytes : Bytes
  deriving DecidableEq

/-- The standard `IpAddr`: a v4 address as four octets, a v6 address as
eight 16-bit groups. -/
inductive IpA
  | v4 (a b c d : Nat)
  | v6 (groups : List Nat)
  deriving DecidableEq

/-- The `Host` enum. -/
inductive Host
  | domain (d : Domain)
  | ip (i : IpA)
  | address (a : Address)
  deriving DecidableEq

/-- The `mail::Ret` enum. -/
inductive Ret
  | headers
  | full
  deriving DecidableEq

/-- The `mail::EnvId` newtype. -/
structure EnvId where
  x : XTextS
  deriving DecidableEq

/-- The `mail::Auth` enum. -/
inductive MailAuth
  | anonymous
  | identity (x : XTextS)
  deriving DecidableEq

/-- The `mail::Body` enum. -/
inductive MailBody
  | sevenBit
  | eightBitMime
  | binaryMime
  deriving DecidableEq

/-- The `mail::ReversePath` enum. -/
inductive ReversePath
  | null
  | email (e : Email)
  deriving DecidableEq

/-- The `mail::Mail` struct (`from` is a Lean keyword; the field is named
`fromPath`). -/
structure Mail where
  size : Option Nat
  ret : Option Ret
  envid : Option EnvId
  auth : Option MailAuth
  body : Option MailBody
  fromPath : ReversePath
  deriving DecidableEq

/-- The `rcpt::Notify` bitflags value: a bitset over DELAY = 1,
FAILURE = 2, SUCCESS = 4 (NEVER is the empty set 0). -/
abbrev Notify := Nat

/-- The `rcpt::Rcpt` struct (`to` is a Lean keyword; the field is named
`toAddr`). -/
structure Rcpt where
  orcpt : Option Email
  notify : Option Notify
  toAddr : Email
  deriving DecidableEq

/-- The `Bdat` struct. -/
structure BdatS where
  size : Nat
  last : Bool
  payload : Bytes
  deriving DecidableEq

/-- The `Mechanism` enum of SASL mechanism names. -/
inductive Mechanism
  | anonymous
  | cramMd5
  | digestMd5
  | gssapi
  | login
  | ntlm
  | oauthBearer
  | plain
  | scramSha1
  | scramSha256
  | xoauth2
  deriving DecidableEq

/-- The `Command` sum type. -/
inductive Command
  | helo (host : Host)
  | ehlo (host : Host)
  | mail (m : Mail)
  | rcpt (r : Rcpt)
  | data (payload : Bytes)
  | bdat (b : BdatS)
  | rset
  | vrfy
  | expn
  | help
  | noop
  | quit
  | startTls
  | auth (mechanism : Mechanism) (initialResponse : Option Base64S)
  deriving DecidableEq

/-- The parse error taxonomy (`src/parse/mod.rs`; `InvalidSyntax` is named
`syntaxInvalid` here). -/
inductive Error
  | invalidCommand
  | invalidParameter
  | missingParameter
  | unexpectedParameter
  | syntaxInvalid
  | emptyLine
  | tooLong
  | eoi
  | commandNotImplemented
  | parameterNotImplemented
  deriving DecidableEq

/-- Decidable equality for fallible results, used to evaluate the model on
concrete inputs. -/
instance {ε α : Type} [DecidableEq ε] [DecidableEq α] : DecidableEq (Except ε α) :=
  fun a b =>
    match a, b with
    | .ok x, .ok y => decidable_of_iff (x = y) (by simp)
    | .error x, .error y => decidable_of_iff (x = y) (by simp)
    | .ok _, .error _ => .isFalse (by simp)
    | .error _, .ok _ => .isFalse (by simp)

/-- Outcome of a fallible operation that can also panic: `ok` and `err`
mirror Rust's `Result`, `crash` marks a Rust panic (a `todo!()` or an
out-of-bounds `advance`). -/
inductive RResult (α : Type)
  | ok (a : α)
  | err (e : Error)
  | crash
  deriving DecidableEq

/-! IP literal parsing.  These model the standard library functions
`core::net::Ipv4Addr::parse_ascii` and `core::net::Ipv6Addr::parse_ascii`
invoked by `TryFrom<Bytes> for Host`; they are not code of this repository. -/

/-- Numeric value of an all-digit byte string. -/
def digitsVal : Bytes → Nat :=
  fun l => l.foldl (fun acc c => acc * 10 + (c - 48)) 0

/-- One dotted-quad octet: non-empty digits, no redundant leading zero,
value at most 255. -/
def octetOk (p : Bytes) : Bool :=
  !p.isEmpty && p.all isDigitB && (p.length == 1 || p.head? != some 48) &&
    digitsVal p ≤ 255

/-- Modelled from `core::net::Ipv4Addr::parse_ascii`: exactly four valid
octets separated by `.`. -/
def ipv4Parse (l : Bytes) : Option (Nat × Nat × Nat × Nat) :=
  match splitB 46 l with
  | [a, b, c, d] =>
    if octetOk a && octetOk b && octetOk c && octetOk d then
      some (digitsVal a, digitsVal b, digitsVal c, digitsVal d)
    else none
  | _ => none

/-- Numeric value of an all-hex-digit byte string. -/
def hexVal : Bytes → Nat :=
  fun l => l.foldl (fun acc c => acc * 16 + decodeHexD c) 0

/-- One 16-bit IPv6 group: one to four hex digits. -/
def hexGroupOk (p : Bytes) : Bool :=
  !p.isEmpty && p.length ≤ 4 && p.all isHexDigitB

/-- Parse a `:`-separated piece list as 16-bit groups, the last piece
optionally an embedded dotted quad (two groups). -/
def groupSeqParse (allowV4 : Bool) : List Bytes → Option (List Nat)
  | [] => some []
  | [p] =>
    if hexGroupOk p then some [hexVal p]
    else if allowV4 then
      match ipv4Parse p with
      | some (a, b, c, d) => some [a * 256 + b, c * 256 + d]
      | none => none
    else none
  | p :: ps =>
    if hexGroupOk p then (groupSeqParse allowV4 ps).map (hexVal p :: ·)
    else none

/-- Modelled from `core::net::Ipv6Addr::parse_ascii`: eight 16-bit hex
groups separated by `:`, at most one `::` standing for one or more zero
groups, optionally ending in an embedded dotted quad. -/
def ipv6Parse (l : Bytes) : Option (List Nat) :=
  match findSub (strB "::") l with
  | none =>
    match groupSeqParse true (splitB 58 l) with
    | some gs => if gs.length = 8 then some gs else none
    | none => none
  | some pos =>
    let left := l.take pos
    let right := l.drop (pos + 2)
    if (findSub (strB "::") right).isSome then none
    else
      let lgs := if left.isEmpty then some [] else groupSeqParse false (splitB 58 left)
      let rgs := if right.isEmpty then some [] else groupSeqParse true (splitB 58 right)
      match lgs, rgs with
      | some lg, some rg =>
        if lg.length + rg.length ≤ 7 then
          some (lg ++ List.replicate (8 - lg.length - rg.length) 0 ++ rg)
        else none
      | _, _ => none

/-! Value parsers (`src/parse/parse_impl.rs`). -/

/-- Body of `TryFrom<Bytes> for Domain` on the split pair `(a, b)`. -/
def domainBuild (input : Bytes) : Bytes × Bytes → Except Error Domain
  | (a, b) =>
    if !is_subdomain a then .error .syntaxInvalid
    else if b.isEmpty then .ok ⟨a⟩
    else if (splitB 46 b).all is_subdomain then .ok ⟨input⟩
    else .error .syntaxInvalid

/-- The parser `TryFrom<Bytes> for Domain`: split at the first `.`; the
front must be a subdomain; with nothing after the dot the front alone is the
domain (a single trailing dot is dropped); otherwise every remaining
`.`-separated piece must be a subdomain and the whole input is kept. -/
def Domain.tryFrom (input : Bytes) : Except Error Domain :=
  domainBuild input ((splitOnceB 46 input).getD (input, []))

/-- The parser `TryFrom<Bytes> for Email`: split at the last `@`; the local
part and domain must validate and the three length ceilings must hold. -/
def Email.tryFrom (input : Bytes) : Except Error Email :=
  match rsplitOnceB 64 input with
  | none => .error .syntaxInvalid
  | some (local_, host) =>
    if local_.length ≤ 64 && is_local_part local_ && host.length ≤ 255 &&
        is_domain host && input.length ≤ 254 then
      .ok ⟨input⟩
    else .error .syntaxInvalid

/-- The parser `TryFrom<Bytes> for XText`. -/
def XTextS.tryFrom (input : Bytes) : Except Error XTextS :=
  if xtextOk input then .ok ⟨input⟩ else .error .syntaxInvalid

/-- The parser `TryFrom<Bytes> for Host`: bracketed input is tried as an
IPv4 literal, then split at the first `:`; an exact `IPv6` tag parses the
rest as an IPv6 literal, an empty tag is rejected, any other tag keeps the
whole bracketed input as an address literal; unbracketed input must be a
domain. -/
def Host.tryFrom (input : Bytes) : Except Error Host :=
  match stripBrackets input with
  | some bracketed =>
    match ipv4Parse bracketed with
    | some (a, b, c, d) => .ok (.ip (.v4 a b c d))
    | none =>
      match splitOnceB 58 bracketed with
      | some (tag, content) =>
        if tag = strB "IPv6" then
          match ipv6Parse content with
          | some gs => .ok (.ip (.v6 gs))
          | none => .error .syntaxInvalid
        else if tag.isEmpty then .error .syntaxInvalid
        else .ok (.address ⟨input⟩)
      | none => .error .syntaxInvalid
  | none => (Domain.tryFrom input).map .domain

/-! MAIL parameter parsing (`src/parse/mail.rs`). -/

/-- The `mail::Parameter` enum. -/
inductive MailParam
  | size (n : Nat)
  | ret (r : Ret)
  | envid (e : EnvId)
  | auth (a : MailAuth)
  | body (b : MailBody)
  deriving DecidableEq

/-- The parser `TryFrom<Bytes> for mail::Ret`. -/
def Ret.tryFrom (input : Bytes) : Except Error Ret :=
  if eqIC input (strB "FULL") then .ok .full
  else if eqIC input (strB "HDRS") then .ok .headers
  else .error .syntaxInvalid

/-- The parser `TryFrom<Bytes> for mail::Auth`: a literal `<>` is the
anonymous identity, anything else must be xtext. -/
def MailAuth.tryFrom (input : Bytes) : Except Error MailAuth :=
  if input = strB "<>" then .ok .anonymous
  else (XTextS.tryFrom input).map .identity

/-- The parser `TryFrom<Bytes> for mail::Body`. -/
def MailBody.tryFrom (input : Bytes) : Except Error MailBody :=
  if eqIC input (strB "7BIT") then .ok .sevenBit
  else if eqIC input (strB "8BITMIME") then .ok .eightBitMime
  else if eqIC input (strB "BINARYMIME") then .ok .binaryMime
  else .error .syntaxInvalid

/-- The parser `TryFrom<Bytes> for mail::Parameter`: split a token at the
first `=`; every recognized name requires a value; unknown names (or a
recognized name without `=`) are `InvalidParameter`. -/
def MailParam.tryFrom (t : Bytes) : Except Error MailParam :=
  let kv : Bytes × Option Bytes :=
    match findB 61 t with
    | some pos => (t.take pos, some (t.drop (pos + 1)))
    | none => (t, none)
  match kv.2 with
  | some v =>
    if eqIC kv.1 (strB "SIZE") then
      match fromAsciiUsize v with
      | some n => .ok (.size n)
      | none => .error .syntaxInvalid
    else if eqIC kv.1 (strB "RET") then (Ret.tryFrom v).map .ret
    else if eqIC kv.1 (strB "ENVID") then (XTextS.tryFrom v).map (.envid ⟨·⟩)
    else if eqIC kv.1 (strB "AUTH") then (MailAuth.tryFrom v).map .auth
    else if eqIC kv.1 (strB "BODY") then (MailBody.tryFrom v).map .body
    else .error .invalidParameter
  | none => .error .invalidParameter

/-- Folding parsed MAIL parameters into the struct
(`Parameters<Result<Parameter>> for Mail`): last occurrence wins, the first
error aborts. -/
def mailFold (m : Mail) : List Bytes → Except Error Mail
  | [] => .ok m
  | t :: ts =>
    match MailParam.tryFrom t with
    | .error e => .error e
    | .ok p =>
      let m2 :=
        match p with
        | .size n => { m with size := some n }
        | .ret r => { m with ret := some r }
        | .envid e => { m with envid := some e }
        | .auth a => { m with auth := some a }
        | .body b => { m with body := some b }
      mailFold m2 ts

/-! RCPT parameter parsing (`src/parse/rcpt.rs`). -/

/-- The parser `TryFrom<Bytes> for rcpt::Notify`: the literal `NEVER` is
the empty set; otherwise fold the comma-separated tokens, each a flag name,
into a bitset. -/
def notifyFold (acc : Nat) : List Bytes → Except Error Nat
  | [] => .ok acc
  | t :: ts =>
    if eqIC t (strB "DELAY") then notifyFold (acc ||| 1) ts
    else if eqIC t (strB "FAILURE") then notifyFold (acc ||| 2) ts
    else if eqIC t (strB "SUCCESS") then notifyFold (acc ||| 4) ts
    else .error .syntaxInvalid

/-- The entry point of `TryFrom<Bytes> for rcpt::Notify`. -/
def Notify.tryFrom (input : Bytes) : Except Error Notify :=
  if eqIC input (strB "NEVER") then .ok 0
  else notifyFold 0 (tokensList input 44)

/-- The `rcpt::Parameter` enum. -/
inductive RcptParam
  | orcpt (e : Email)
  | notify (n : Notify)
  deriving DecidableEq

/-- The parser `TryFrom<Bytes> for rcpt::Parameter`. -/
def RcptParam.tryFrom (t : Bytes) : Except Error RcptParam :=
  let kv : Bytes × Option Bytes :=
    match findB 61 t with
    | some pos => (t.take pos, some (t.drop (pos + 1)))
    | none => (t, none)
  match kv.2 with
  | some v =>
    if eqIC kv.1 (strB "NOTIFY") then (Notify.tryFrom v).map .notify
    else if eqIC kv.1 (strB "ORCPT") then (Email.tryFrom v).map .orcpt
    else .error .invalidParameter
  | none => .error .invalidParameter

/-- Folding parsed RCPT parameters into the struct
(`Parameters<Result<Parameter>> for Rcpt`). -/
def rcptFold (r : Rcpt) : List Bytes → Except Error Rcpt
  | [] => .ok r
  | t :: ts =>
    match RcptParam.tryFrom t with
    | .error e => .error e
    | .ok p =>
      let r2 :=
        match p with
        | .orcpt e => { r with orcpt := some e }
        | .notify n => { r with notify := some n }
      rcptFold r2 ts

/-! Verb sub-parsers (`src/parse/rfc5321.rs`).  Each receives the tokens
remaining after the verb. -/

/-- The sub-parser `helo`: exactly one argument, a domain. -/
def heloP (rest : List Bytes) : Except Error Command :=
  match rest with
  | [d] => (Domain.tryFrom d).map (fun dom => .helo (.domain dom))
  | [] => .error .missingParameter
  | _ :: _ :: _ => .error .unexpectedParameter

/-- The sub-parser `ehlo`: exactly one argument, a host. -/
def ehloP (rest : List Bytes) : Except Error Command :=
  match rest with
  | [d] => (Host.tryFrom d).map .ehlo
  | [] => .error .missingParameter
  | _ :: _ :: _ => .error .unexpectedParameter

/-- The sub-parser `mail`: a `FROM:` argument whose remainder is `<>` or an
angle-bracketed email, then MAIL parameters. -/
def mailP (rest : List Bytes) : Except Error Command :=
  match rest with
  | [] => .error .missingParameter
  | t :: params =>
    match stripPrefixCI t (strB "FROM:") with
    | none => .error .syntaxInvalid
    | some rp =>
      let fromE : Except Error ReversePath :=
        if rp = strB "<>" then .ok .null
        else
          match stripAngled rp with
          | none => .error .syntaxInvalid
          | some inner => (Email.tryFrom inner).map .email
      match fromE with
      | .error e => .error e
      | .ok f => (mailFold ⟨none, none, none, none, none, f⟩ params).map .mail

/-- The sub-parser `rcpt`: a `TO:` argument, angle-bracketed email, then
RCPT parameters. -/
def rcptP (rest : List Bytes) : Except Error Command :=
  match rest with
  | [] => .error .missingParameter
  | t :: params =>
    match (stripPrefixCI t (strB "TO:")).bind stripAngled with
    | none => .error .syntaxInvalid
    | some inner =>
      match Email.tryFrom inner with
      | .error e => .error e
      | .ok toE => (rcptFold ⟨none, none, toE⟩ params).map .rcpt

/-- The sub-parser `data`: no further tokens; the payload placeholder is
empty. -/
def dataP (rest : List Bytes) : Except Error Command :=
  if rest.isEmpty then .ok (.data []) else .error .unexpectedParameter

/-- The sub-parser `rset`. -/
def rsetP (rest : List Bytes) : Except Error Command :=
  if rest.isEmpty then .ok .rset else .error .unexpectedParameter

/-- The sub-parser `quit`. -/
def quitP (rest : List Bytes) : Except Error Command :=
  if rest.isEmpty then .ok .quit else .error .unexpectedParameter

/-- The sub-parser `noop`. -/
def noopP (rest : List Bytes) : Except Error Command :=
  if rest.isEmpty then .ok .noop else .error .unexpectedParameter

/-- The sub-parser `bdat`: a mandatory decimal size (digit errors are
`InvalidSyntax`, overflow is `TooLong`), an optional literal `LAST`, no
further tokens; the payload placeholder is empty. -/
def bdatP (rest : List Bytes) : Except Error Command :=
  match rest with
  | [] => .error .missingParameter
  | sizeTok :: rest2 =>
    match btouDec sizeTok with
    | .error .emptyInput => .error .syntaxInvalid
    | .error .invalidDigit => .error .syntaxInvalid
    | .error .posOverflow => .error .tooLong
    | .ok size =>
      match rest2 with
      | [] => .ok (.bdat ⟨size, false, []⟩)
      | t :: rest3 =>
        if eqIC t (strB "LAST") then
          if rest3.isEmpty then .ok (.bdat ⟨size, true, []⟩)
          else .error .unexpectedParameter
        else .error .unexpectedParameter

/-- Lift a sub-parser result into the panic-aware result type. -/
def liftR {α : Type} : Except Error α → RResult α
  | .ok a => .ok a
  | .error e => .err e

/-- The single-command parser `TryFrom<Bytes> for Command`
(`src/parse/parse_impl.rs`): split the line on spaces, dispatch on the
first token case-insensitively; `VRFY`, `EXPN` and `HELP` dispatch to
`todo!()` stubs, which panic. -/
def Command.tryFrom (input : Bytes) : RResult Command :=
  match tokensList input 32 with
  | [] => .err .emptyLine
  | verb :: rest =>
    if eqIC verb (strB "HELO") then liftR (heloP rest)
    else if eqIC verb (strB "EHLO") then liftR (ehloP rest)
    else if eqIC verb (strB "MAIL") then liftR (mailP rest)
    else if eqIC verb (strB "RCPT") then liftR (rcptP rest)
    else if eqIC verb (strB "DATA") then liftR (dataP rest)
    else if eqIC verb (strB "RSET") then liftR (rsetP rest)
    else if eqIC verb (strB "VRFY") then .crash
    else if eqIC verb (strB "EXPN") then .crash
    else if eqIC verb (strB "HELP") then .crash
    else if eqIC verb (strB "NOOP") then liftR (noopP rest)
    else if eqIC verb (strB "QUIT") then liftR (quitP rest)
    else if eqIC verb (strB "BDAT") then liftR (bdatP rest)
    else .err .commandNotImplemented

/-! Serializer (`src/types/serialize.rs`). -/

/-- Decimal digit bytes of a natural number (the `itoa` crate /
`Display for usize`). -/
def natToAscii (n : Nat) : Bytes := (Nat.toDigits 10 n).map (fun c => c.toNat)

/-- Lowercase hex digit bytes of a natural number (`LowerHex` formatting of
one IPv6 group). -/
def natToHexAscii (n : Nat) : Bytes := (Nat.toDigits 16 n).map (fun c => c.toNat)

/-- The serializer `ToBytes for ReversePath`. -/
def rpToBytes : ReversePath → Bytes
  | .null => strB "<" ++ strB ">"
  | .email e => strB "<" ++ e.bytes ++ strB ">"

/-- The serializer `ToBytes for Mail`: the reverse path, then each present
parameter in declaration order, then CRLF. -/
def mailToBytes (m : Mail) : Bytes :=
  strB "MAIL FROM:" ++ rpToBytes m.fromPath ++
    (match m.size with
      | some n => strB " SIZE=" ++ natToAscii n
      | none => []) ++
    (match m.ret with
      | some .full => strB " RET=FULL"
      | some .headers => strB " RET=HDRS"
      | none => []) ++
    (match m.envid with
      | some e => strB " ENVID=" ++ e.x.bytes
      | none => []) ++
    (match m.auth with
      | some .anonymous => strB " AUTH=<>"
      | some (.identity x) => strB " AUTH=" ++ x.bytes
      | none => []) ++
    (match m.body with
      | some .sevenBit => strB " BODY=7BIT"
      | some .eightBitMime => strB " BODY=8BITMIME"
      | some .binaryMime => strB " BODY=BINARYMIME"
      | none => []) ++
    crlfB

/-- The serializer `ToBytes for Rcpt`: the verb, the raw email bytes (the
blanket `AsRef<[u8]>` impl, so no angle brackets) and CRLF; the `notify`
and `orcpt` fields are not emitted. -/
def rcptToBytes (r : Rcpt) : Bytes :=
  strB "RCPT TO:" ++ r.toAddr.bytes ++ crlfB

/-- The serializer `ToBytes for Bdat`: verb, the length of the payload,
optional `LAST`, CRLF, then the payload with no trailing CRLF. -/
def bdatToBytes (b : BdatS) : Bytes :=
  strB "BDAT " ++ natToAscii b.payload.length ++
    (if b.last then strB " LAST" else []) ++ crlfB ++ b.payload

/-- Length of the zero run starting at the head of the list. -/
def zeroRunAt : List Nat → Nat
  | 0 :: rest => zeroRunAt rest + 1
  | _ => 0

/-- Start index and length of the leftmost longest zero run. -/
def bestZeroRun (i : Nat) : List Nat → Nat × Nat
  | [] => (i, 0)
  | g :: rest =>
    let here := zeroRunAt (g :: rest)
    let best := bestZeroRun (i + 1) rest
    if here ≥ best.2 then (i, here) else best

/-- Join pieces with a single `:` byte. -/
def joinColon (ps : List Bytes) : Bytes := List.intercalate (strB ":") ps

/-- Dotted-quad decimal form of four octets (`Display for Ipv4Addr`). -/
def ipv4Fmt (a b c d : Nat) : Bytes :=
  natToAscii a ++ strB "." ++ natToAscii b ++ strB "." ++ natToAscii c ++
    strB "." ++ natToAscii d

/-- Modelled from `Display for core::net::Ipv6Addr`: special forms for the
unspecified, loopback and IPv4-mapped addresses, otherwise lowercase hex
groups with the leftmost longest zero run of length at least two compressed
to `::`. -/
def ipv6Fmt (gs : List Nat) : Bytes :=
  if gs = List.replicate 8 0 then strB "::"
  else if gs = [0, 0, 0, 0, 0, 0, 0, 1] then strB "::1"
  else
    match gs with
    | [0, 0, 0, 0, 0, 65535, g, h] =>
      strB "::ffff:" ++ ipv4Fmt (g / 256) (g % 256) (h / 256) (h % 256)
    | _ =>
      let best := bestZeroRun 0 gs
      if best.2 > 1 then
        joinColon ((gs.take best.1).map natToHexAscii) ++ strB "::" ++
          joinColon ((gs.drop (best.1 + best.2)).map natToHexAscii)
      else joinColon (gs.map natToHexAscii)

/-- The serializer `ToBytes for Host`: domain and address bytes verbatim;
an IP is written as `[{ip}]` using the plain `Display for IpAddr` (so a v6
literal gets no `IPv6:` tag here). -/
def hostToBytes : Host → Bytes
  | .domain d => d.bytes
  | .ip (.v4 a b c d) => strB "[" ++ ipv4Fmt a b c d ++ strB "]"
  | .ip (.v6 gs) => strB "[" ++ ipv6Fmt gs ++ strB "]"
  | .address a => a.bytes

/-- The serializer `ToBytes for Mechanism`: only `PLAIN` and `LOGIN` are
implemented, every other arm is `todo!()` and panics. -/
def mechToBytes : Mechanism → RResult Bytes
  | .plain => .ok (strB "PLAIN")
  | .login => .ok (strB "LOGIN")
  | _ => .crash

/-- The serializer `ToBytes for Command`: each arm writes its wire form and
the match is followed by one more CRLF (every arm except `Bdat`, which
returns early); `Helo` and `Ehlo` write only the host with no verb;
`Vrfy`, `Expn`, `Help` and `StartTls` are `todo!()` and panic. -/
def Command.toBytes : Command → RResult Bytes
  | .helo h => .ok (hostToBytes h ++ crlfB)
  | .ehlo h => .ok (hostToBytes h ++ crlfB)
  | .mail m => .ok (mailToBytes m ++ crlfB)
  | .rcpt r => .ok (rcptToBytes r ++ crlfB)
  | .data p => .ok (strB "DATA\r\n" ++ p ++ strB "\r\n." ++ crlfB)
  | .bdat b => .ok (bdatToBytes b)
  | .rset => .ok (strB "RSET" ++ crlfB)
  | .quit => .ok (strB "QUIT" ++ crlfB)
  | .vrfy => .crash
  | .expn => .crash
  | .help => .crash
  | .noop => .ok (strB "NOOP" ++ crlfB)
  | .startTls => .crash
  | .auth mech ir =>
    match mechToBytes mech with
    | .crash => .crash
    | .err e => .err e
    | .ok mb =>
      .ok (mb ++ (match ir with | some r => strB " " ++ r.bytes | none => []) ++ crlfB)

/-! Streaming parser state machine (`src/parser.rs`). -/

/-- The parser's internal `State`. -/
inductive PState
  | command
  | data
  | bdat (size : Nat) (last : Bool)
  deriving DecidableEq

/-- The `Parser` struct: state and configured `max` (the finders are
constants). -/
structure Parser where
  state : PState
  max : Nat
  deriving DecidableEq

/-- Result of one `Parser::parse` call: a command (`Ok(Some(_))`), a
need-more-bytes signal (`Ok(None)`), an error (`Err(_)`), or a panic. -/
inductive POut
  | cmd (c : Command)
  | needMore
  | err (e : Error)
  | crash
  deriving DecidableEq

/-- The body of `Parser::parse`, a loop over (max, state, buffer).  Each
`continue` of the Rust loop consumes a command line plus its CRLF, at least
two bytes, so fuel `length + 1` always suffices and the fuel-exhausted
branch (which reports need-more) is unreachable from `Parser.parse`.
Returns the outcome, the final state, and the remaining buffer. -/
def parseLoopF : Nat → Nat → PState → Bytes → POut × PState × Bytes
  | 0, _, st, buf => (.needMore, st, buf)
  | fuel + 1, max, st, buf =>
    if buf.length > max then (.err .tooLong, .command, [])
    else
      match st with
      | .command =>
        match findSub crlfB buf with
        | none => (.needMore, .command, buf)
        | some pos =>
          if pos > 510 then (.err .tooLong, .command, buf.drop pos)
          else
            match Command.tryFrom (buf.take pos) with
            | .crash => (.crash, .command, buf.drop (pos + 2))
            | .err e => (.err e, .command, buf.drop (pos + 2))
            | .ok c =>
              match c with
              | .data _ => parseLoopF fuel max .data (buf.drop (pos + 2))
              | .bdat b => parseLoopF fuel max (.bdat b.size b.last) (buf.drop (pos + 2))
              | c2 => (.cmd c2, .command, buf.drop (pos + 2))
      | .data =>
        match findSub dataTermB buf with
        | none => (.needMore, .data, buf)
        | some pos =>
          let payload := buf.take pos
          let rest := buf.drop (pos + 5)
          if (linesList payload).any (fun l => l.length > 998) then
            (.err .tooLong, .command, rest)
          else (.cmd (.data payload), .command, rest)
      | .bdat size lastB =>
        if size > max then
          if size ≤ buf.length then (.err .tooLong, .command, buf.drop size)
          else (.crash, .command, [])
        else if buf.length < size then (.needMore, .bdat size lastB, buf)
        else (.cmd (.bdat ⟨size, lastB, buf.take size⟩), .command, buf.drop size)

/-- The public `Parser::parse`: run the loop on the caller's buffer. -/
def Parser.parse (p : Parser) (buf : Bytes) : POut × Parser × Bytes :=
  let r := parseLoopF (buf.length + 1) p.max p.state buf
  (r.1, ⟨r.2.1, p.max⟩, r.2.2)

/-- The `Default` parser: state `Command`, `max` of 25 MiB. -/
def Parser.mkDefault : Parser := ⟨.command, 1024 * 1024 * 25⟩

/-! Auxiliary lemmas about the byte-level primitives. -/

theorem findB_not_mem {d : Nat} {l : Bytes} (h : d ∉ l) : findB d l = none := by
  induction l with
  | nil => rfl
  | cons c rest ih =>
    simp only [findB]
    rw [if_neg (by rintro rfl; exact h (List.mem_cons_self c rest)),
      ih (fun hm => h (List.mem_cons_of_mem c hm))]
    rfl

theorem findB_append {d : Nat} {pre post : Bytes} (h : d ∉ pre) :
    findB d (pre ++ d :: post) = some pre.length := by
  induction pre with
  | nil => simp [findB]
  | cons c rest ih =>
    simp only [List.cons_append, List.append_eq, findB]
    rw [if_neg (by rintro rfl; exact h (List.mem_cons_self c rest)),
      ih (fun hm => h (List.mem_cons_of_mem c hm))]
    rfl

theorem rsplitOnceB_not_mem {d : Nat} {l : Bytes} (h : d ∉ l) :
    rsplitOnceB d l = none := by
  induction l with
  | nil => rfl
  | cons c rest ih =>
    simp only [rsplitOnceB]
    rw [ih (fun hm => h (List.mem_cons_of_mem c hm))]
    exact if_neg (by rintro rfl; exact h (List.mem_cons_self c rest))

theorem rsplitOnceB_append {d : Nat} {pre post : Bytes} (h : d ∉ post) :
    rsplitOnceB d (pre ++ d :: post) = some (pre, post) := by
  induction pre with
  | nil =>
    simp only [List.nil_append, rsplitOnceB, rsplitOnceB_not_mem h]
    simp
  | cons c rest ih =>
    simp only [List.cons_append, List.append_eq, rsplitOnceB]
    rw [ih]

theorem splitB_ne_nil (d : Nat) (l : Bytes) : splitB d l ≠ [] := by
  cases l with
  | nil => simp [splitB]
  | cons c rest =>
    simp only [splitB]
    split
    · simp
    · split <;> simp

theorem splitB_not_mem {d : Nat} {l : Bytes} (h : d ∉ l) : splitB d l = [l] := by
  induction l with
  | nil => rfl
  | cons c rest ih =>
    simp only [splitB]
    rw [if_neg (by rintro rfl; exact h (List.mem_cons_self c rest)),
      ih (fun hm => h (List.mem_cons_of_mem c hm))]

theorem splitB_append {d : Nat} {pre post : Bytes} (h : d ∉ pre) :
    splitB d (pre ++ d :: post) = pre :: splitB d post := by
  induction pre with
  | nil => simp [splitB]
  | cons c rest ih =>
    simp only [List.cons_append, List.append_eq, splitB]
    rw [if_neg (by rintro rfl; exact h (List.mem_cons_self c rest)),
      ih (fun hm => h (List.mem_cons_of_mem c hm))]

theorem mem_splitB {c d : Nat} {l : Bytes} (h : c ∈ l) :
    c = d ∨ ∃ p ∈ splitB d l, c ∈ p := by
  induction l with
  | nil => cases h
  | cons a rest ih =>
    by_cases ha : a = d
    · subst ha
      simp only [splitB, if_pos rfl]
      rcases List.mem_cons.mp h with rfl | hm
      · exact .inl rfl
      · rcases ih hm with hc | ⟨p, hp, hcp⟩
        · exact .inl hc
        · exact .inr ⟨p, List.mem_cons_of_mem _ hp, hcp⟩
    · simp only [splitB, if_neg ha]
      rcases hs : splitB d rest with _ | ⟨t, ts⟩
      · exact absurd hs (splitB_ne_nil d rest)
      · rcases List.mem_cons.mp h with rfl | hm
        · exact .inr ⟨c :: t, List.mem_cons_self _ _, List.mem_cons_self _ _⟩
        · rcases ih hm with hc | ⟨p, hp, hcp⟩
          · exact .inl hc
          · rw [hs] at hp
            rcases List.mem_cons.mp hp with rfl | hpts
            · exact .inr ⟨a :: p, List.mem_cons_self _ _, List.mem_cons_of_mem _ hcp⟩
            · exact .inr ⟨p, List.mem_cons_of_mem _ hpts, hcp⟩

theorem getLast?_cons_ne_nil {α : Type} (a : α) {s : List α} (h : s ≠ []) :
    (a :: s).getLast? = s.getLast? := by
  cases s with
  | nil => exact absurd rfl h
  | cons b t => simp [List.getLast?_cons_cons]

theorem dropLast_cons_ne_nil {α : Type} (a : α) {s : List α} (h : s ≠ []) :
    (a :: s).dropLast = a :: s.dropLast := by
  cases s with
  | nil => exact absurd rfl h
  | cons b t => rfl

theorem not_mem_of_findB_none {d : Nat} {l : Bytes} (h : findB d l = none) :
    d ∉ l := by
  induction l with
  | nil => simp
  | cons c rest ih =>
    simp only [findB] at h
    by_cases hc : c = d
    · rw [if_pos hc] at h; cases h
    · rw [if_neg hc] at h
      have := ih (Option.map_eq_none'.mp h)
      simp only [List.mem_cons]
      rintro (rfl | hm)
      · exact hc rfl
      · exact this hm

theorem findB_some {d : Nat} {l : Bytes} {pos : Nat} (h : findB d l = some pos) :
    ∃ pre post, l = pre ++ d :: post ∧ pre.length = pos ∧ d ∉ pre := by
  induction l generalizing pos with
  | nil => cases h
  | cons c rest ih =>
    simp only [findB] at h
    by_cases hc : c = d
    · rw [if_pos hc] at h
      subst hc
      cases h
      exact ⟨[], rest, rfl, rfl, by simp⟩
    · rw [if_neg hc] at h
      rcases Option.map_eq_some'.mp h with ⟨p, hp, rfl⟩
      rcases ih hp with ⟨pre, post, rfl, rfl, hnm⟩
      refine ⟨c :: pre, post, rfl, rfl, ?_⟩
      simp only [List.mem_cons]
      rintro (rfl | hm)
      · exact hc rfl
      · exact hnm hm

/-! The Tokens iterator versus Rust slice split (claim C5). -/

theorem tokensGo_nil (d f : Nat) : tokensGo d f [] = [] := by
  cases f <;> rfl

theorem tokensGo_spec (d : Nat) :
    ∀ (f : Nat) (l : Bytes), l.length < f →
      tokensGo d f l =
        (if (splitB d l).getLast? = some [] then (splitB d l).dropLast
         else splitB d l) := by
  intro f
  induction f with
  | zero => intro l h; omega
  | succ f ih =>
    intro l hl
    cases l with
    | nil => simp [tokensGo_nil, splitB]
    | cons c r =>
      rcases hf : findB d (c :: r) with _ | pos
      · have hnm := not_mem_of_findB_none hf
        have hrw : tokensGo d (f + 1) (c :: r) = [c :: r] := by
          simp only [tokensGo, hf, Option.getD_none, List.take_length,
            List.drop_length, List.isEmpty_nil, if_true, tokensGo_nil]
        rw [hrw, splitB_not_mem hnm]
        simp
      · rcases findB_some hf with ⟨pre, post, heq, rfl, hpre⟩
        have hlen : post.length < f := by
          have := hl
          rw [heq] at this
          simp only [List.length_append, List.length_cons] at this
          omega
        have hrw : tokensGo d (f + 1) (c :: r) = pre :: tokensGo d f post := by
          simp only [tokensGo, hf, Option.getD_some]
          rw [heq, List.take_left, List.drop_left]
          simp
        rw [hrw, ih post hlen, heq, splitB_append hpre]
        have hs := splitB_ne_nil d post
        rw [getLast?_cons_ne_nil pre hs]
        by_cases hlast : (splitB d post).getLast? = some []
        · rw [if_pos hlast, if_pos hlast, dropLast_cons_ne_nil pre hs]
        · rw [if_neg hlast, if_neg hlast]

/-- Claim C5 (counterexample): the buffer `a,` is non-empty and ends with
the delimiter `,`, yet the Tokens iterator yields only the single token
`a` — no final empty token follows it. -/
theorem c5_trailing_delim_counterexample :
    tokensList (strB "a,") 44 = [strB "a"] ∧
      (tokensList (strB "a,") 44).getLast? ≠ some [] := by
  decide

/-- Claim C5 (amended): the Tokens iterator yields the Rust `slice::split`
pieces of the buffer with the final piece dropped when that piece is empty;
hence an empty buffer yields nothing, and a trailing delimiter does not
yield a final empty token (for example `a,` yields just `a`, and `,` yields
one empty token). -/
theorem c5_tokens_eq_split_drop_trailing_empty (l : Bytes) (d : Nat) :
    tokensList l d =
      (if (splitB d l).getLast? = some [] then (splitB d l).dropLast
       else splitB d l) :=
  tokensGo_spec d (l.length + 1) l (Nat.lt_succ_self _)

/-! Subdomain and domain byte lemmas (claims C6 and C9). -/

theorem subdomain_all {s : Bytes} (h : is_subdomain s = true) :
    s.all (fun c => isAlnumB c || c == 45) = true := by
  unfold is_subdomain at h
  split at h
  · exact absurd h (by simp)
  · split at h
    · exact absurd h (by simp)
    · exact h

theorem subdomain_mem {s : Bytes} (h : is_subdomain s = true) {c : Nat}
    (hm : c ∈ s) : (isAlnumB c || c == 45) = true :=
  List.all_eq_true.mp (subdomain_all h) c hm

theorem subdomain_not_dot {s : Bytes} (h : is_subdomain s = true) :
    (46 : Nat) ∉ s := by
  intro hm
  exact absurd (subdomain_mem h hm) (by decide)

/-- Claim C6 (counterexample): the multi-label input `a.b.` with a trailing
dot is rejected by the domain validator and by Domain parsing, against the
claim that every dotted sequence of subdomains with one trailing dot is
accepted. -/
theorem c6_multi_label_trailing_dot_rejected :
    is_domain (strB "a.b.") = false ∧
      Domain.tryFrom (strB "a.b.") = .error .syntaxInvalid := by
  decide

/-- Claim C6 (amended): a single subdomain followed by one trailing dot is
accepted by the validator, and Domain parsing succeeds (keeping only the
label, the trailing dot is dropped); multi-label inputs with a trailing dot
such as `a.b.` are rejected because the empty final label fails the
subdomain check of the remainder. -/
theorem c6_single_label_trailing_dot_accepted (s : Bytes)
    (h : is_subdomain s = true) :
    is_domain (s ++ [46]) = true ∧ Domain.tryFrom (s ++ [46]) = .ok ⟨s⟩ := by
  have h46 := subdomain_not_dot h
  have hfind : findB 46 (s ++ [46]) = some s.length := findB_append h46
  have hsplit : splitOnceB 46 (s ++ [46]) = some (s, []) := by
    unfold splitOnceB
    rw [hfind, Option.map_some']
    congr 1
    refine Prod.ext ?_ ?_
    · exact List.take_left s [46]
    · show (s ++ [46]).drop (s.length + 1) = []
      rw [← List.drop_drop, List.drop_left]
      rfl
  constructor
  · unfold is_domain
    rw [hsplit]
    simp [domainCheck, h]
  · unfold Domain.tryFrom
    rw [hsplit]
    simp [domainBuild, h]

/-- Claim C6 (witness): the single-label input `a.` is accepted. -/
theorem c6_witness :
    is_domain (strB "a" ++ [46]) = true ∧
      Domain.tryFrom (strB "a" ++ [46]) = .ok ⟨strB "a"⟩ :=
  c6_single_label_trailing_dot_accepted (strB "a") (by decide)

/-! XText encode and decode (claim C7). -/

theorem hexRound : ∀ b : Nat, b < 16 → decodeHexD (encodeHexD b) = b := by
  decide

theorem byteRecomb : ∀ c : Nat, c < 256 → ((c >>> 4) <<< 4 ||| (c &&& 15)) = c := by
  decide

theorem xtextDecode_cons_ne {c : Nat} (l : Bytes) (hc : c ≠ 43) :
    xtextDecode (c :: l) = c :: xtextDecode l := by
  cases l with
  | nil => rfl
  | cons x t =>
    cases t with
    | nil => rfl
    | cons y t2 => simp [xtextDecode, hc]

theorem xtextDecode_triplet (a b : Nat) (l : Bytes) :
    xtextDecode (43 :: a :: b :: l) =
      ((decodeHexD a) <<< 4 ||| decodeHexD b) :: xtextDecode l := by
  simp [xtextDecode]

theorem xtextRound (l : Bytes) (hb : ∀ b ∈ l, b < 256) :
    xtextDecode (xtextEncode l) = l := by
  induction l with
  | nil => rfl
  | cons c rest ih =>
    have hc : c < 256 := hb c (List.mem_cons_self _ _)
    have hrest : ∀ b ∈ rest, b < 256 := fun b hm => hb b (List.mem_cons_of_mem _ hm)
    by_cases hx : is_xchar c = true
    · have hc43 : c ≠ 43 := by rintro rfl; exact absurd hx (by decide)
      simp only [xtextEncode, hx, if_true]
      rw [xtextDecode_cons_ne _ hc43, ih hrest]
    · have h1 : c >>> 4 < 16 := by rw [Nat.shiftRight_eq_div_pow]; omega
      have h2 : c &&& 15 < 16 := by
        have := Nat.and_le_right (n := c) (m := 15); omega
      have henc : xtextEncode (c :: rest) =
          43 :: encodeHexD (c >>> 4) :: encodeHexD (c &&& 15) ::
            xtextEncode rest := by
        simp only [xtextEncode]
        rw [if_neg hx]
      rw [henc, xtextDecode_triplet, hexRound _ h1, hexRound _ h2,
        byteRecomb c hc, ih hrest]

/-- Claim C7 (counterexample): encoding `he@llo<LF>+world+` yields
`he@llo+0A+2Bworld+2B` — the `@` byte (0x40) is an xchar and passes through
verbatim, so the output is not the claimed `he+40llo+0A+2Bworld+2B`. -/
theorem c7_at_byte_not_escaped :
    xtextEncode (strB "he@llo\n+world+") = strB "he@llo+0A+2Bworld+2B" ∧
      xtextEncode (strB "he@llo\n+world+") ≠ strB "he+40llo+0A+2Bworld+2B" := by
  decide

/-- Claim C7 (amended): `XText.encode` on `he@llo<LF>+world+` produces
exactly `he@llo+0A+2Bworld+2B` (only the non-xchar bytes LF and `+` are
escaped; `@` stays verbatim), and decoding an encoded byte string returns
the original bytes for every input of octets. -/
theorem c7_encode_output_and_decode_roundtrip :
    xtextEncode (strB "he@llo\n+world+") = strB "he@llo+0A+2Bworld+2B" ∧
      ∀ l : Bytes, (∀ b ∈ l, b < 256) → xtextDecode (xtextEncode l) = l := by
  refine ⟨by decide, ?_⟩
  intro l hb
  exact xtextRound l hb

/-- Claim C7 (witness): the round trip evaluated at the concrete input of
the claim. -/
theorem c7_witness :
    xtextDecode (xtextEncode (strB "he@llo\n+world+")) = strB "he@llo\n+world+" :=
  c7_encode_output_and_decode_roundtrip.2 (strB "he@llo\n+world+") (by decide)

/-! Email parsing at the last `@` (claim C9). -/

theorem domain_mem {l : Bytes} (h : is_domain l = true) {c : Nat} (hm : c ∈ l) :
    (isAlnumB c || c == 45 || c == 46) = true := by
  rcases hf : findB 46 l with _ | pos
  · have hsub : is_subdomain l = true := by
      unfold is_domain splitOnceB at h
      rw [hf] at h
      simp only [Option.map_none', Option.getD_none, domainCheck] at h
      by_cases hs : is_subdomain l = true
      · exact hs
      · rw [Bool.not_eq_true] at hs
        rw [hs] at h
        simp at h
    have h2 := subdomain_mem hsub hm
    simp only [Bool.or_eq_true] at h2 ⊢
    tauto
  · rcases findB_some hf with ⟨pre, post, rfl, rfl, hpre⟩
    unfold is_domain splitOnceB at h
    rw [hf, Option.map_some', Option.getD_some, List.take_left] at h
    have hdrop : (pre ++ 46 :: post).drop (pre.length + 1) = post := by
      rw [← List.drop_drop, List.drop_left]
      rfl
    rw [hdrop] at h
    simp only [domainCheck] at h
    have hsubpre : is_subdomain pre = true := by
      by_cases hs : is_subdomain pre = true
      · exact hs
      · rw [Bool.not_eq_true] at hs
        rw [hs] at h
        simp at h
    rw [hsubpre] at h
    simp only [Bool.not_true, Bool.false_eq_true, if_false] at h
    rcases List.mem_append.mp hm with hmp | hmc
    · have h2 := subdomain_mem hsubpre hmp
      simp only [Bool.or_eq_true] at h2 ⊢
      tauto
    · rcases List.mem_cons.mp hmc with rfl | hmpost
      · simp
      · have hpost : post ≠ [] := by rintro rfl; cases hmpost
        rw [if_neg (by simp [hpost])] at h
        rcases mem_splitB (d := 46) hmpost with rfl | ⟨p, hp, hcp⟩
        · simp
        · have hsubp : is_subdomain p = true := List.all_eq_true.mp h p hp
          have h2 := subdomain_mem hsubp hcp
          simp only [Bool.or_eq_true] at h2 ⊢
          tauto

theorem domain_no_at {l : Bytes} (h : is_domain l = true) : (64 : Nat) ∉ l := by
  intro hm
  exact absurd (domain_mem h hm) (by decide)

/-- Claim C9: Email parsing splits at the last `@`.  For a valid
quoted-string local part `q` (which may itself contain `@`) and a valid
domain `d` within the length ceilings, parsing `q@d` succeeds and keeps the
whole input, with everything before the final `@` as the local part. -/
theorem c9_email_splits_at_last_at (q d : Bytes)
    (hq : is_quoted_string q = true) (hat : (64 : Nat) ∈ q)
    (hd : is_domain d = true) (hql : q.length ≤ 64) (hdl : d.length ≤ 255)
    (htot : q.length + d.length + 1 ≤ 254) :
    Email.tryFrom (q ++ 64 :: d) = .ok ⟨q ++ 64 :: d⟩ := by
  have h64d : (64 : Nat) ∉ d := domain_no_at hd
  have hlp : is_local_part q = true := by
    unfold is_local_part
    rw [hq]
    simp
  have hlen : (q ++ 64 :: d).length ≤ 254 := by
    simp only [List.length_append, List.length_cons]
    omega
  unfold Email.tryFrom
  rw [rsplitOnceB_append h64d]
  simp [hlp, hd, hql, hdl, hlen]
  omega

/-- Claim C9 (witness): parsing the quoted local part example
`"a@b"@example.com` succeeds. -/
theorem c9_witness :
    Email.tryFrom (strB "\"a@b\"" ++ 64 :: strB "example.com") =
      .ok ⟨strB "\"a@b\"" ++ 64 :: strB "example.com"⟩ :=
  c9_email_splits_at_last_at (strB "\"a@b\"") (strB "example.com")
    (by decide) (by decide) (by decide) (by decide) (by decide) (by decide)

/-- Claim C10: a `NOTIFY=` parameter with an empty value is accepted:
parsing `RCPT TO:<a@b.c> NOTIFY=` succeeds with `notify` set to the empty
bitset, the same value produced by `NOTIFY=NEVER`. -/
theorem c10_empty_notify_value_accepted :
    Command.tryFrom (strB "RCPT TO:<a@b.c> NOTIFY=") =
        .ok (.rcpt ⟨none, some 0, ⟨strB "a@b.c"⟩⟩) ∧
      Command.tryFrom (strB "RCPT TO:<a@b.c> NOTIFY=NEVER") =
        .ok (.rcpt ⟨none, some 0, ⟨strB "a@b.c"⟩⟩) ∧
      Notify.tryFrom [] = .ok 0 ∧ Notify.tryFrom (strB "NEVER") = .ok 0 := by
  decide

/-! The TooLong state invariant (claim C8). -/

theorem parseLoopF_tooLong_state :
    ∀ (f max : Nat) (st : PState) (buf : Bytes),
      (parseLoopF f max st buf).1 = .err .tooLong →
      (parseLoopF f max st buf).2.1 = .command := by
  intro f
  induction f with
  | zero => intro max st buf h; simp [parseLoopF] at h
  | succ f ih =>
    intro max st buf h
    unfold parseLoopF at h ⊢
    by_cases hb : buf.length > max
    · rw [if_pos hb]
    · rw [if_neg hb] at h ⊢
      cases st with
      | command =>
        revert h
        rcases hf : findSub crlfB buf with _ | pos
        · intro h
          dsimp only at h
          simp at h
        · intro h
          dsimp only at h ⊢
          by_cases hp : pos > 510
          · rw [if_pos hp]
          · rw [if_neg hp] at h ⊢
            revert h
            cases hc : Command.tryFrom (buf.take pos) with
            | ok c =>
              intro h
              dsimp only at h ⊢
              cases c with
              | data payload => exact ih max .data (buf.drop (pos + 2)) h
              | bdat b => exact ih max (.bdat b.size b.last) (buf.drop (pos + 2)) h
              | helo host => simp at h
              | ehlo host => simp at h
              | mail m => simp at h
              | rcpt r => simp at h
              | rset => simp at h
              | vrfy => simp at h
              | expn => simp at h
              | help => simp at h
              | noop => simp at h
              | quit => simp at h
              | startTls => simp at h
              | auth mech ir => simp at h
            | err e =>
              intro h
              dsimp only
            | crash =>
              intro h
              dsimp only at h
              simp at h
      | data =>
        revert h
        rcases hf : findSub dataTermB buf with _ | pos
        · intro h
          dsimp only at h
          simp at h
        · intro h
          dsimp only at h ⊢
          by_cases hl :
              ((linesList (buf.take pos)).any fun l => decide (l.length > 998)) = true
          · rw [if_pos hl]
          · rw [if_neg hl] at h
            simp at h
      | bdat size lastB =>
        dsimp only at h ⊢
        by_cases hs : size > max
        · rw [if_pos hs] at h ⊢
          by_cases hsl : size ≤ buf.length
          · rw [if_pos hsl]
          · rw [if_neg hsl] at h
            simp at h
        · rw [if_neg hs] at h ⊢
          by_cases hbl : buf.length < size
          · rw [if_pos hbl] at h
            simp at h
          · rw [if_neg hbl] at h
            simp at h

/-- Claim C8: whenever `Parser::parse` returns the `TooLong` error — at the
whole-buffer ceiling, an over-long command line, an over-long DATA line, an
oversize BDAT or a BDAT size overflow at parse time — the parser state
afterwards is `AwaitingCommand` (`State::Command`). -/
theorem c8_tooLong_leaves_command_state (p : Parser) (buf : Bytes)
    (h : (Parser.parse p buf).1 = .err .tooLong) :
    (Parser.parse p buf).2.1.state = .command := by
  unfold Parser.parse at h ⊢
  exact parseLoopF_tooLong_state (buf.length + 1) p.max p.state buf h

/-- Claim C8 (witness): a parser with `max` 3 fed a four-byte buffer
returns `TooLong` and is left in the command state. -/
theorem c8_witness :
    (Parser.parse ⟨.command, 3⟩ [65, 65, 65, 65]).2.1.state = .command :=
  c8_tooLong_leaves_command_state ⟨.command, 3⟩ [65, 65, 65, 65] (by decide)

/-! Locating the frame terminators in buffers whose front contains no `\r`
byte.  These let the state machine be evaluated on kilobyte-sized buffers
without kilobyte-deep kernel computation. -/

theorem notPre_of_ne {c : Nat} (p' l' : Bytes) (hc : ¬((13 : Nat) = c)) :
    List.isPrefixOf (13 :: p') (c :: l') = false := by
  simp [List.isPrefixOf, hc]

theorem findSub_pre_crlf {pre : Bytes} (l : Bytes) (h13 : (13 : Nat) ∉ pre) :
    findSub crlfB (pre ++ 13 :: 10 :: l) = some pre.length := by
  show findSub [13, 10] (pre ++ 13 :: 10 :: l) = some pre.length
  induction pre with
  | nil => simp [findSub, List.isPrefixOf]
  | cons c rest ih =>
    have hc : ¬((13 : Nat) = c) := by
      rintro rfl; exact h13 (List.mem_cons_self _ _)
    have hrest : (13 : Nat) ∉ rest := fun hm => h13 (List.mem_cons_of_mem _ hm)
    simp only [List.cons_append, List.append_eq, findSub, notPre_of_ne _ _ hc,
      Bool.false_eq_true, if_false, ih hrest]
    rfl

theorem findSub_crlf_none {l : Bytes} (h13 : (13 : Nat) ∉ l) :
    findSub crlfB l = none := by
  show findSub [13, 10] l = none
  induction l with
  | nil => rfl
  | cons c rest ih =>
    have hc : ¬((13 : Nat) = c) := by
      rintro rfl; exact h13 (List.mem_cons_self _ _)
    have hrest : (13 : Nat) ∉ rest := fun hm => h13 (List.mem_cons_of_mem _ hm)
    simp only [findSub, notPre_of_ne _ _ hc, Bool.false_eq_true, if_false,
      ih hrest]
    rfl

theorem findSub_pre_dataTerm {pre : Bytes} (l : Bytes) (h13 : (13 : Nat) ∉ pre) :
    findSub dataTermB (pre ++ 13 :: 10 :: 46 :: 13 :: 10 :: l) =
      some pre.length := by
  show findSub [13, 10, 46, 13, 10] (pre ++ 13 :: 10 :: 46 :: 13 :: 10 :: l) =
    some pre.length
  induction pre with
  | nil => simp [findSub, List.isPrefixOf]
  | cons c rest ih =>
    have hc : ¬((13 : Nat) = c) := by
      rintro rfl; exact h13 (List.mem_cons_self _ _)
    have hrest : (13 : Nat) ∉ rest := fun hm => h13 (List.mem_cons_of_mem _ hm)
    simp only [List.cons_append, List.append_eq, findSub, notPre_of_ne _ _ hc,
      Bool.false_eq_true, if_false, ih hrest]
    rfl

theorem findSub_pre_dataTerm2 {pre : Bytes} (l : Bytes)
    (h13 : (13 : Nat) ∉ pre) :
    findSub dataTermB (pre ++ 13 :: 10 :: 13 :: 10 :: 46 :: 13 :: 10 :: l) =
      some (pre.length + 2) := by
  show findSub [13, 10, 46, 13, 10]
      (pre ++ 13 :: 10 :: 13 :: 10 :: 46 :: 13 :: 10 :: l) =
    some (pre.length + 2)
  induction pre with
  | nil =>
    show findSub [13, 10, 46, 13, 10]
        (13 :: 10 :: 13 :: 10 :: 46 :: 13 :: 10 :: l) = some 2
    simp [findSub, List.isPrefixOf]
  | cons c rest ih =>
    have hc : ¬((13 : Nat) = c) := by
      rintro rfl; exact h13 (List.mem_cons_self _ _)
    have hrest : (13 : Nat) ∉ rest := fun hm => h13 (List.mem_cons_of_mem _ hm)
    simp only [List.cons_append, List.append_eq, findSub, notPre_of_ne _ _ hc,
      Bool.false_eq_true, if_false, ih hrest]
    rfl

theorem linesGo_nil (f : Nat) : linesGo f [] = [] := by
  cases f <;> rfl

theorem linesList_no_cr {l : Bytes} (h13 : (13 : Nat) ∉ l) :
    linesList l = [] := by
  unfold linesList linesGo
  rw [findSub_crlf_none h13]

theorem linesList_single_line {pre : Bytes} (h13 : (13 : Nat) ∉ pre) :
    linesList (pre ++ [13, 10]) = [pre] := by
  unfold linesList linesGo
  rw [show pre ++ [13, 10] = pre ++ 13 :: 10 :: [] from rfl,
    findSub_pre_crlf [] h13]
  dsimp only
  have hdrop : (pre ++ 13 :: 10 :: []).drop (pre.length + 2) = [] := by
    rw [← List.drop_drop, List.drop_left]
    rfl
  rw [List.take_left, hdrop, linesGo_nil]

/-! Single steps of the parser loop on symbolically framed buffers. -/

/-- One `AwaitingCommand` step of the loop: a command line `pre` (with no
`\r` inside, of legal length) followed by CRLF and the rest of the buffer
is consumed and dispatched. -/
theorem parse_step_command (f max : Nat) (pre l : Bytes)
    (h13 : (13 : Nat) ∉ pre) (hmax : (pre ++ 13 :: 10 :: l).length ≤ max)
    (hline : pre.length ≤ 510) :
    parseLoopF (f + 1) max .command (pre ++ 13 :: 10 :: l) =
      match Command.tryFrom pre with
      | .crash => (.crash, .command, l)
      | .err e => (.err e, .command, l)
      | .ok c =>
        match c with
        | .data _ => parseLoopF f max .data l
        | .bdat b => parseLoopF f max (.bdat b.size b.last) l
        | c2 => (.cmd c2, .command, l) := by
  conv_lhs => rw [parseLoopF]
  rw [if_neg (Nat.not_lt.mpr hmax)]
  try dsimp only
  rw [findSub_pre_crlf l h13]
  try dsimp only
  rw [if_neg (Nat.not_lt.mpr hline), List.take_left]
  have hdrop : (pre ++ 13 :: 10 :: l).drop (pre.length + 2) = l := by
    rw [← List.drop_drop, List.drop_left]
    rfl
  rw [hdrop]

/-- One `AwaitingCommand` step on an over-long command line: the line is
discarded up to but not including the CRLF and `TooLong` is returned. -/
theorem parse_step_command_tooLong (f max : Nat) (pre l : Bytes)
    (h13 : (13 : Nat) ∉ pre) (hmax : (pre ++ 13 :: 10 :: l).length ≤ max)
    (hline : 510 < pre.length) :
    parseLoopF (f + 1) max .command (pre ++ 13 :: 10 :: l) =
      (.err .tooLong, .command, 13 :: 10 :: l) := by
  unfold parseLoopF
  rw [if_neg (Nat.not_lt.mpr hmax)]
  try dsimp only
  rw [findSub_pre_crlf l h13]
  try dsimp only
  rw [if_pos hline, List.drop_left]

/-- One `InData` step on a body with no `\r` at all: the final line is
never yielded by `Lines`, so no length check happens and the body parses
whatever its length. -/
theorem parse_step_data_unterminated (f max : Nat) (pre : Bytes)
    (h13 : (13 : Nat) ∉ pre)
    (hmax : (pre ++ 13 :: 10 :: 46 :: 13 :: 10 :: []).length ≤ max) :
    parseLoopF (f + 1) max .data (pre ++ 13 :: 10 :: 46 :: 13 :: 10 :: []) =
      (.cmd (.data pre), .command, []) := by
  unfold parseLoopF
  rw [if_neg (Nat.not_lt.mpr hmax)]
  try dsimp only
  rw [findSub_pre_dataTerm [] h13]
  try dsimp only
  rw [List.take_left]
  have hdrop : (pre ++ 13 :: 10 :: 46 :: 13 :: 10 :: []).drop (pre.length + 5) = [] := by
    rw [← List.drop_drop, List.drop_left]
    rfl
  rw [hdrop, linesList_no_cr h13]
  simp

/-- One `InData` step on a body that is a single CRLF-terminated line of
at most 998 bytes: the body parses and keeps its CRLF. -/
theorem parse_step_data_line_ok (f max : Nat) (pre : Bytes)
    (h13 : (13 : Nat) ∉ pre)
    (hmax : (pre ++ 13 :: 10 :: 13 :: 10 :: 46 :: 13 :: 10 :: []).length ≤ max)
    (h998 : pre.length ≤ 998) :
    parseLoopF (f + 1) max .data
        (pre ++ 13 :: 10 :: 13 :: 10 :: 46 :: 13 :: 10 :: []) =
      (.cmd (.data (pre ++ [13, 10])), .command, []) := by
  unfold parseLoopF
  rw [if_neg (Nat.not_lt.mpr hmax)]
  try dsimp only
  rw [findSub_pre_dataTerm2 [] h13]
  try dsimp only
  have hsplit : pre ++ 13 :: 10 :: 13 :: 10 :: 46 :: 13 :: 10 :: [] =
      (pre ++ [13, 10]) ++ 13 :: 10 :: 46 :: 13 :: 10 :: [] := by
    simp
  have hlen2 : pre.length + 2 = (pre ++ [13, 10]).length := by simp
  rw [hsplit, hlen2, List.take_left]
  have hdrop : ((pre ++ [13, 10]) ++ 13 :: 10 :: 46 :: 13 :: 10 :: []).drop
      ((pre ++ [13, 10]).length + 5) = [] := by
    rw [← List.drop_drop, List.drop_left]
    rfl
  rw [hdrop, linesList_single_line h13]
  have hany : (([pre] : List Bytes).any fun l => decide (l.length > 998)) = false := by
    simp
    omega
  rw [hany]
  simp

/-- One `InData` step on a body that is a single CRLF-terminated line
longer than 998 bytes: the body is consumed, the state resets and
`TooLong` is returned. -/
theorem parse_step_data_line_long (f max : Nat) (pre : Bytes)
    (h13 : (13 : Nat) ∉ pre)
    (hmax : (pre ++ 13 :: 10 :: 13 :: 10 :: 46 :: 13 :: 10 :: []).length ≤ max)
    (h998 : 998 < pre.length) :
    parseLoopF (f + 1) max .data
        (pre ++ 13 :: 10 :: 13 :: 10 :: 46 :: 13 :: 10 :: []) =
      (.err .tooLong, .command, []) := by
  unfold parseLoopF
  rw [if_neg (Nat.not_lt.mpr hmax)]
  try dsimp only
  rw [findSub_pre_dataTerm2 [] h13]
  try dsimp only
  have hsplit : pre ++ 13 :: 10 :: 13 :: 10 :: 46 :: 13 :: 10 :: [] =
      (pre ++ [13, 10]) ++ 13 :: 10 :: 46 :: 13 :: 10 :: [] := by
    simp
  have hlen2 : pre.length + 2 = (pre ++ [13, 10]).length := by simp
  rw [hsplit, hlen2, List.take_left]
  have hdrop : ((pre ++ [13, 10]) ++ 13 :: 10 :: 46 :: 13 :: 10 :: []).drop
      ((pre ++ [13, 10]).length + 5) = [] := by
    rw [← List.drop_drop, List.drop_left]
    rfl
  rw [hdrop, linesList_single_line h13]
  have hany : (([pre] : List Bytes).any fun l => decide (l.length > 998)) = true := by
    simp
    omega
  rw [hany]
  simp

/-! Claims C1 to C4. -/

/-- Claim C1 (code bug): round-tripping fails.  `HELO example.com` parses to
a `Helo` command, but the serializer emits only the host bytes with no
`HELO ` verb, so reparsing the encoding yields `CommandNotImplemented`
instead of the original command.  Likewise `RCPT TO:<a@b.c>` parses, but
its encoding drops the angle brackets around the mailbox (and any
NOTIFY/ORCPT parameters, and gains a second CRLF), so reparsing fails with
`InvalidSyntax`. -/
theorem c1_parse_encode_roundtrip_fails :
    Command.tryFrom (strB "HELO example.com") =
        .ok (.helo (.domain ⟨strB "example.com"⟩)) ∧
      Command.toBytes (.helo (.domain ⟨strB "example.com"⟩)) =
        .ok (strB "example.com\r\n") ∧
      (Parser.parse Parser.mkDefault (strB "example.com\r\n")).1 =
        .err .commandNotImplemented ∧
      Command.tryFrom (strB "RCPT TO:<a@b.c>") =
        .ok (.rcpt ⟨none, none, ⟨strB "a@b.c"⟩⟩) ∧
      Command.toBytes (.rcpt ⟨none, none, ⟨strB "a@b.c"⟩⟩) =
        .ok (strB "RCPT TO:a@b.c\r\n\r\n") ∧
      (Parser.parse Parser.mkDefault (strB "RCPT TO:a@b.c\r\n\r\n")).1 =
        .err .syntaxInvalid := by
  decide

/-- Claim C2 (code bug): `Parser::parse` can panic.  A `VRFY` (or `EXPN`
or `HELP`) command line dispatches to a `todo!()` stub, and in the `InBdat`
state with an announced size above `max` the call `buf.advance(size)` runs
past the end of the buffer; both panic instead of returning an error. -/
theorem c2_parse_panics :
    (Parser.parse Parser.mkDefault (strB "VRFY\r\n")).1 = .crash ∧
      (Parser.parse ⟨.command, 20⟩ (strB "BDAT 100\r\n")).1 = .crash ∧
      Command.tryFrom (strB "VRFY") = .crash ∧
      Command.tryFrom (strB "EXPN") = .crash ∧
      Command.tryFrom (strB "HELP") = .crash := by
  decide

/-! Helper run lemmas for claims C3 and C4.  Each evaluates one full
`parseLoopF` run on a concrete kilobyte-scale buffer through the step
lemmas, kept as separate theorems chained with `Eq.trans` so no single
proof term nests deeply. -/

theorem not13_replicate (n a : Nat) (ha : a ≠ 13) :
    (13 : Nat) ∉ List.replicate n a := by
  intro hm
  exact ha (List.eq_of_mem_replicate hm).symm

theorem c3LenA : (strB "DATA" ++ 13 :: 10 ::
    (List.replicate 999 97 ++ 13 :: 10 :: 46 :: 13 :: 10 :: [])).length = 1010 := by
  rw [List.length_append, List.length_cons, List.length_cons,
    List.length_append, List.length_replicate]
  decide

theorem c3LenRA :
    (List.replicate 999 97 ++ 13 :: 10 :: 46 :: 13 :: 10 :: ([] : Bytes)).length
      = 1004 := by
  rw [List.length_append, List.length_replicate]
  decide

theorem c3RunA_1 :
    parseLoopF ((strB "DATA" ++ 13 :: 10 ::
        (List.replicate 999 97 ++ 13 :: 10 :: 46 :: 13 :: 10 :: [])).length + 1)
      (1024 * 1024 * 25) .command
      (strB "DATA" ++ 13 :: 10 ::
        (List.replicate 999 97 ++ 13 :: 10 :: 46 :: 13 :: 10 :: [])) =
    parseLoopF ((strB "DATA" ++ 13 :: 10 ::
        (List.replicate 999 97 ++ 13 :: 10 :: 46 :: 13 :: 10 :: [])).length)
      (1024 * 1024 * 25) .data
      (List.replicate 999 97 ++ 13 :: 10 :: 46 :: 13 :: 10 :: []) := by
  rw [parse_step_command _ _ (strB "DATA") _ (by decide)
    (by rw [c3LenA]; decide) (by decide)]
  rw [show Command.tryFrom (strB "DATA") = RResult.ok (Command.data [])
    from by decide]

theorem c3RunA_2 :
    parseLoopF ((strB "DATA" ++ 13 :: 10 ::
        (List.replicate 999 97 ++ 13 :: 10 :: 46 :: 13 :: 10 :: [])).length)
      (1024 * 1024 * 25) .data
      (List.replicate 999 97 ++ 13 :: 10 :: 46 :: 13 :: 10 :: []) =
    (.cmd (.data (List.replicate 999 97)), .command, []) := by
  rw [c3LenA, show (1010 : Nat) = 1009 + 1 from by norm_num]
  exact parse_step_data_unterminated 1009 _ (List.replicate 999 97)
    (not13_replicate 999 97 (by decide)) (by rw [c3LenRA]; decide)

theorem c3RunA :
    parseLoopF ((strB "DATA" ++ 13 :: 10 ::
        (List.replicate 999 97 ++ 13 :: 10 :: 46 :: 13 :: 10 :: [])).length + 1)
      (1024 * 1024 * 25) .command
      (strB "DATA" ++ 13 :: 10 ::
        (List.replicate 999 97 ++ 13 :: 10 :: 46 :: 13 :: 10 :: [])) =
    (.cmd (.data (List.replicate 999 97)), .command, []) :=
  c3RunA_1.trans c3RunA_2

theorem c3LenB : (strB "DATA" ++ 13 :: 10 ::
    (List.replicate 999 97 ++
      13 :: 10 :: 13 :: 10 :: 46 :: 13 :: 10 :: [])).length = 1012 := by
  rw [List.length_append, List.length_cons, List.length_cons,
    List.length_append, List.length_replicate]
  decide

theorem c3LenRB : (List.replicate 999 97 ++
    13 :: 10 :: 13 :: 10 :: 46 :: 13 :: 10 :: ([] : Bytes)).length = 1006 := by
  rw [List.length_append, List.length_replicate]
  decide

theorem c3RunB_1 :
    parseLoopF ((strB "DATA" ++ 13 :: 10 ::
        (List.replicate 999 97 ++
          13 :: 10 :: 13 :: 10 :: 46 :: 13 :: 10 :: [])).length + 1)
      (1024 * 1024 * 25) .command
      (strB "DATA" ++ 13 :: 10 ::
        (List.replicate 999 97 ++
          13 :: 10 :: 13 :: 10 :: 46 :: 13 :: 10 :: [])) =
    parseLoopF ((strB "DATA" ++ 13 :: 10 ::
        (List.replicate 999 97 ++
          13 :: 10 :: 13 :: 10 :: 46 :: 13 :: 10 :: [])).length)
      (1024 * 1024 * 25) .data
      (List.replicate 999 97 ++
        13 :: 10 :: 13 :: 10 :: 46 :: 13 :: 10 :: []) := by
  rw [parse_step_command _ _ (strB "DATA") _ (by decide)
    (by rw [c3LenB]; decide) (by decide)]
  rw [show Command.tryFrom (strB "DATA") = RResult.ok (Command.data [])
    from by decide]

theorem c3RunB_2 :
    parseLoopF ((strB "DATA" ++ 13 :: 10 ::
        (List.replicate 999 97 ++
          13 :: 10 :: 13 :: 10 :: 46 :: 13 :: 10 :: [])).length)
      (1024 * 1024 * 25) .data
      (List.replicate 999 97 ++
        13 :: 10 :: 13 :: 10 :: 46 :: 13 :: 10 :: []) =
    (.err .tooLong, .command, []) := by
  rw [c3LenB, show (1012 : Nat) = 1011 + 1 from by norm_num]
  exact parse_step_data_line_long 1011 _ (List.replicate 999 97)
    (not13_replicate 999 97 (by decide)) (by rw [c3LenRB]; decide)
    (by rw [List.length_replicate]; decide)

theorem c3RunB :
    parseLoopF ((strB "DATA" ++ 13 :: 10 ::
        (List.replicate 999 97 ++
          13 :: 10 :: 13 :: 10 :: 46 :: 13 :: 10 :: [])).length + 1)
      (1024 * 1024 * 25) .command
      (strB "DATA" ++ 13 :: 10 ::
        (List.replicate 999 97 ++
          13 :: 10 :: 13 :: 10 :: 46 :: 13 :: 10 :: [])) =
    (.err .tooLong, .command, []) :=
  c3RunB_1.trans c3RunB_2

theorem c3LenC : (strB "DATA" ++ 13 :: 10 ::
    (List.replicate 998 97 ++
      13 :: 10 :: 13 :: 10 :: 46 :: 13 :: 10 :: [])).length = 1011 := by
  rw [List.length_append, List.length_cons, List.length_cons,
    List.length_append, List.length_replicate]
  decide

theorem c3LenRC : (List.replicate 998 97 ++
    13 :: 10 :: 13 :: 10 :: 46 :: 13 :: 10 :: ([] : Bytes)).length = 1005 := by
  rw [List.length_append, List.length_replicate]
  decide

theorem c3RunC_1 :
    parseLoopF ((strB "DATA" ++ 13 :: 10 ::
        (List.replicate 998 97 ++
          13 :: 10 :: 13 :: 10 :: 46 :: 13 :: 10 :: [])).length + 1)
      (1024 * 1024 * 25) .command
      (strB "DATA" ++ 13 :: 10 ::
        (List.replicate 998 97 ++
          13 :: 10 :: 13 :: 10 :: 46 :: 13 :: 10 :: [])) =
    parseLoopF ((strB "DATA" ++ 13 :: 10 ::
        (List.replicate 998 97 ++
          13 :: 10 :: 13 :: 10 :: 46 :: 13 :: 10 :: [])).length)
      (1024 * 1024 * 25) .data
      (List.replicate 998 97 ++
        13 :: 10 :: 13 :: 10 :: 46 :: 13 :: 10 :: []) := by
  rw [parse_step_command _ _ (strB "DATA") _ (by decide)
    (by rw [c3LenC]; decide) (by decide)]
  rw [show Command.tryFrom (strB "DATA") = RResult.ok (Command.data [])
    from by decide]

theorem c3RunC_2 :
    parseLoopF ((strB "DATA" ++ 13 :: 10 ::
        (List.replicate 998 97 ++
          13 :: 10 :: 13 :: 10 :: 46 :: 13 :: 10 :: [])).length)
      (1024 * 1024 * 25) .data
      (List.replicate 998 97 ++
        13 :: 10 :: 13 :: 10 :: 46 :: 13 :: 10 :: []) =
    (.cmd (.data (List.replicate 998 97 ++ [13, 10])), .command, []) := by
  rw [c3LenC, show (1011 : Nat) = 1010 + 1 from by norm_num]
  exact parse_step_data_line_ok 1010 _ (List.replicate 998 97)
    (not13_replicate 998 97 (by decide)) (by rw [c3LenRC]; decide)
    (by rw [List.length_replicate])

theorem c3RunC :
    parseLoopF ((strB "DATA" ++ 13 :: 10 ::
        (List.replicate 998 97 ++
          13 :: 10 :: 13 :: 10 :: 46 :: 13 :: 10 :: [])).length + 1)
      (1024 * 1024 * 25) .command
      (strB "DATA" ++ 13 :: 10 ::
        (List.replicate 998 97 ++
          13 :: 10 :: 13 :: 10 :: 46 :: 13 :: 10 :: [])) =
    (.cmd (.data (List.replicate 998 97 ++ [13, 10])), .command, []) :=
  c3RunC_1.trans c3RunC_2

theorem c4Len :
    (List.replicate 518 65 ++ 13 :: 10 :: ([] : Bytes)).length = 520 := by
  rw [List.length_append, List.length_replicate]
  decide

theorem c4Run :
    parseLoopF ((List.replicate 518 65 ++ 13 :: 10 :: ([] : Bytes)).length + 1)
      (1024 * 1024 * 25) .command (List.replicate 518 65 ++ 13 :: 10 :: []) =
    (.err .tooLong, .command, 13 :: 10 :: []) :=
  parse_step_command_tooLong _ _ _ _ (not13_replicate 518 65 (by decide))
    (by rw [c4Len]; decide) (by rw [List.length_replicate]; decide)

/-- Claim C3 (counterexample): a DATA body that is a single 999-byte line
(no internal CRLF) parses successfully as `Data`, not `TooLong`: the
`Lines` iterator never yields the final unterminated line, so its length is
never checked. -/
theorem c3_final_line_unchecked :
    Parser.parse Parser.mkDefault
        (strB "DATA\r\n" ++ List.replicate 999 97 ++ strB "\r\n.\r\n") =
      (.cmd (.data (List.replicate 999 97)), Parser.mkDefault, []) ∧
    (POut.cmd (.data (List.replicate 999 97)) : POut) ≠ .err .tooLong := by
  refine ⟨?_, fun h => POut.noConfusion h⟩
  have e1 : strB "DATA\r\n" ++ List.replicate 999 97 ++ strB "\r\n.\r\n" =
      strB "DATA" ++ 13 :: 10 ::
        (List.replicate 999 97 ++ 13 :: 10 :: 46 :: 13 :: 10 :: []) := rfl
  dsimp only [Parser.parse, Parser.mkDefault]
  rw [e1, c3RunA]

/-- Claim C3 (amended): only the CRLF-terminated lines inside a DATA body
are length-checked.  A 999-byte line terminated by CRLF inside the body
triggers `TooLong` with the state reset to `AwaitingCommand`, while a
998-byte terminated line parses (the payload keeps its CRLF); the final
unterminated line is never checked (see the counterexample for the single
999-byte line that parses). -/
theorem c3_crlf_terminated_lines_checked :
    Parser.parse Parser.mkDefault
        (strB "DATA\r\n" ++ List.replicate 999 97 ++ strB "\r\n\r\n.\r\n") =
      (.err .tooLong, Parser.mkDefault, []) ∧
    Parser.parse Parser.mkDefault
        (strB "DATA\r\n" ++ List.replicate 998 97 ++ strB "\r\n\r\n.\r\n") =
      (.cmd (.data (List.replicate 998 97 ++ [13, 10])), Parser.mkDefault, []) := by
  constructor
  · have e1 : strB "DATA\r\n" ++ List.replicate 999 97 ++ strB "\r\n\r\n.\r\n" =
        strB "DATA" ++ 13 :: 10 ::
          (List.replicate 999 97 ++
            13 :: 10 :: 13 :: 10 :: 46 :: 13 :: 10 :: []) := rfl
    dsimp only [Parser.parse, Parser.mkDefault]
    rw [e1, c3RunB]
  · have e1 : strB "DATA\r\n" ++ List.replicate 998 97 ++ strB "\r\n\r\n.\r\n" =
        strB "DATA" ++ 13 :: 10 ::
          (List.replicate 998 97 ++
            13 :: 10 :: 13 :: 10 :: 46 :: 13 :: 10 :: []) := rfl
    dsimp only [Parser.parse, Parser.mkDefault]
    rw [e1, c3RunC]

/-- Claim C4 (counterexample): a 520-byte buffer ending in CRLF with no
earlier CRLF returns `TooLong` and keeps the CRLF in the buffer; after the
caller appends `NOOP\r\n`, the next call returns the `Empty` error (the
kept CRLF frames an empty command line), not the claimed `Noop`. -/
theorem c4_next_call_returns_empty_not_noop :
    Parser.parse Parser.mkDefault (List.replicate 518 65 ++ strB "\r\n") =
        (.err .tooLong, Parser.mkDefault, strB "\r\n") ∧
      Parser.parse Parser.mkDefault (strB "\r\n" ++ strB "NOOP\r\n") =
        (.err .emptyLine, Parser.mkDefault, strB "NOOP\r\n") ∧
      (POut.err .emptyLine : POut) ≠ .cmd .noop := by
  refine ⟨?_, by decide, by decide⟩
  have e1 : List.replicate 518 65 ++ strB "\r\n" =
      List.replicate 518 65 ++ 13 :: 10 :: [] := rfl
  dsimp only [Parser.parse, Parser.mkDefault]
  rw [e1, c4Run]
  rfl

/-- Claim C4 (amended): after the `TooLong` return the CRLF is kept, so
with `NOOP\r\n` appended the next call returns the `Empty` error while
consuming that CRLF, and the call after that returns `Noop`. -/
theorem c4_empty_then_noop :
    Parser.parse Parser.mkDefault (List.replicate 518 65 ++ strB "\r\n") =
        (.err .tooLong, Parser.mkDefault, strB "\r\n") ∧
      Parser.parse Parser.mkDefault (strB "\r\n" ++ strB "NOOP\r\n") =
        (.err .emptyLine, Parser.mkDefault, strB "NOOP\r\n") ∧
      Parser.parse Parser.mkDefault (strB "NOOP\r\n") =
        (.cmd .noop, Parser.mkDefault, []) := by
  refine ⟨?_, by decide, by decide⟩
  have e1 : List.replicate 518 65 ++ strB "\r\n" =
      List.replicate 518 65 ++ 13 :: 10 :: [] := rfl
  dsimp only [Parser.parse, Parser.mkDefault]
  rw [e1, c4Run]
  rfl

end Smtpkit
